import Mathlib

/-!
Verification development for the LLMClaudeCode repository: a Go adapter that
wraps an external command-line agent as a streaming chat-completion client.

The embedding below is a shallow model of the Go sources:
- package files model: the client (readStream, buildCommand, GenerateContent,
  splitSystemMessages, mergeSystemPrompt, buildPrompt, messageToText,
  extractAssistantContent, mergeResultInfo, getStringField, handleToolEvent,
  formatToolUseSummary) and the option bag (Options, defaultOptions,
  WithMaxBufferSize, OutputMode and ToolEvent types).
- Go maps decoded from JSON are modelled as association lists; the standard
  library JSON decoder, the process spawn, the bufio scanner and wall-clock
  timestamps are environment effects: a stdout line arrives already classified
  as blank, malformed (decoder error), or a decoded JSON object.
- Side-effecting callbacks (the streaming callback and the tool-event hook)
  are modelled by recording every invocation in an explicit trace.
-/

namespace LLMClaudeCode

/-- A decoded JSON value, as produced by the standard library decoder into
dynamically typed maps. Numbers are kept as exact decimal pairs
(mantissa, power of ten) because the program only moves them, never computes
with them. -/
inductive JValue where
  | null
  | bool (b : Bool)
  | num (mantissa : Int) (exponent : Nat)
  | str (s : String)
  | arr (elems : List JValue)
  | obj (fields : List (String × JValue))

/-- Association-list field lookup, modelling Go map indexing `m[key]`
(first matching key; decoded JSON maps have distinct keys). -/
def lookupJ (key : String) : List (String × JValue) → Option JValue
  | [] => none
  | (k, v) :: rest => if k = key then some v else lookupJ key rest

/-- Go map assignment `m[key] = v`: replace the value of an existing key,
otherwise add the binding. -/
def setKey : List (String × JValue) → String → JValue → List (String × JValue)
  | [], key, v => [(key, v)]
  | (k, w) :: rest, key, v =>
    if k = key then (key, v) :: rest else (k, w) :: setKey rest key v

/-- getStringField safely extracts a string field from a map: the value if it
is present and a string, otherwise the empty string. -/
def getStringField (m : List (String × JValue)) (key : String) : String :=
  match lookupJ key m with
  | some (JValue.str s) => s
  | _ => ""

/-- The set of code points trimmed by the Go standard library TrimSpace
(Unicode white space). -/
def goIsSpace (c : Char) : Bool :=
  c == ' ' || c == '\t' || c == '\n' || c == '\r' ||
  c == Char.ofNat 0x0B || c == Char.ofNat 0x0C ||
  c == Char.ofNat 0x85 || c == Char.ofNat 0xA0 ||
  c == Char.ofNat 0x1680 || (0x2000 ≤ c.toNat && c.toNat ≤ 0x200A) ||
  c == Char.ofNat 0x2028 || c == Char.ofNat 0x2029 ||
  c == Char.ofNat 0x202F || c == Char.ofNat 0x205F || c == Char.ofNat 0x3000

/-- strings.TrimSpace: drop white space from both ends. -/
def trimSpace (s : String) : String :=
  String.mk (((s.data.dropWhile goIsSpace).reverse.dropWhile goIsSpace).reverse)

/-- OutputMode is a Go integer enumeration; text = 0, verbose = 1, full = 2. -/
def OutputModeText : Int := 0

/-- Verbose output mode: text plus tool-call summaries. -/
def OutputModeVerbose : Int := 1

/-- Full output mode: the complete agent trace. -/
def OutputModeFull : Int := 2

/-- ToolEventType integer enumeration: a tool-use request. -/
def ToolEventUse : Int := 0

/-- ToolEventType integer enumeration: a tool execution result. -/
def ToolEventResult : Int := 1

/-- ToolEvent, minus its wall-clock Timestamp field (an environment effect
with no bearing on any verified property). Input is the optional structured
input map of a tool_use block (Go: a possibly nil map). The source field
name Type is a reserved word here, written eventType. -/
structure ToolEvent where
  eventType : Int
  ToolName : String := ""
  ToolID : String := ""
  Input : Option (List (String × JValue)) := none
  Output : String := ""

/-- The option bag. Function-valued fields are modelled by their observable
part: ToolEventHook presence is a flag (each invocation is recorded in the
trace); maps are association lists. -/
structure Options where
  CLIPath : String := ""
  Model : String := ""
  SystemPrompt : String := ""
  Cwd : String := ""
  PermissionMode : String := ""
  Tools : List String := []
  AllowedTools : List String := []
  DisallowedTools : List String := []
  Env : List (String × String) := []
  ExtraArgs : List (String × String) := []
  MaxBufferSize : Int := 0
  OutputMode : Int := 0
  hasToolEventHook : Bool := false
  SessionID : String := ""
  Resume : Bool := false
  ForkSession : Bool := false
  NoSessionPersistence : Bool := false
deriving DecidableEq

/-- Default permission mode constant. -/
def defaultPermissionMode : String := "bypassPermissions"

/-- Default maximum stdout line size: 1 MiB. -/
def defaultMaxBufferSize : Int := 1024 * 1024

/-- defaultOptions from the options file. -/
def defaultOptions : Options :=
  { PermissionMode := defaultPermissionMode
    MaxBufferSize := defaultMaxBufferSize
    Env := []
    ExtraArgs := [] }

/-- WithMaxBufferSize sets the maximum line size for stdout parsing; a
non-positive size is ignored. -/
def WithMaxBufferSize (size : Int) : Options → Options :=
  fun o => if size > 0 then { o with MaxBufferSize := size } else o

/-- The option-normalisation performed by the constructor New after applying
the caller-supplied mutators to the defaults (the CLI binary path resolution
is a filesystem effect outside the model). -/
def newOptions (opts : List (Options → Options)) : Options :=
  let options := opts.foldl (fun o f => f o) defaultOptions
  let options :=
    if options.PermissionMode = "" then
      { options with PermissionMode := defaultPermissionMode }
    else options
  let options :=
    if options.MaxBufferSize ≤ 0 then
      { options with MaxBufferSize := defaultMaxBufferSize }
    else options
  options

/-- Chat message roles are strings in the upstream library. -/
def ChatMessageTypeSystem : String := "system"

/-- The human role string. -/
def ChatMessageTypeHuman : String := "human"

/-- The AI role string. -/
def ChatMessageTypeAI : String := "ai"

/-- The function role string. -/
def ChatMessageTypeFunction : String := "function"

/-- The tool role string. -/
def ChatMessageTypeTool : String := "tool"

/-- The generic role string. -/
def ChatMessageTypeGeneric : String := "generic"

/-- One content part of a message: plain text, a tool invocation request
(whose FunctionCall pointer may be nil), a tool invocation result, or any
other part kind (image, binary, ...) which the adapter does not support. -/
inductive ContentPart where
  | textContent (text : String)
  | toolCall (hasFunctionCall : Bool) (name : String) (arguments : String)
  | toolCallResponse (name : String) (content : String)
  | otherPart (typeName : String)
deriving DecidableEq

/-- A role-tagged message with ordered content parts. -/
structure MessageContent where
  Role : String
  Parts : List ContentPart
deriving DecidableEq

/-- The error values produced by the client (one constructor per distinct
fmt.Errorf site reachable in the modelled code). -/
inductive Err where
  | unsupportedPart (typeName : String)
  | emptyPrompt
  | parseJson (raw : String)
  | missingMessage
  | missingContent
  | unsupportedContentType
  | streamCallback (msg : String)
  | cliError (payload : List (String × JValue))
  | readStdout (msg : String)
  | cliFailed (exitErr : String) (stderrText : String)
  | cliFailedNoStderr (exitErr : String)

/-- Render one content part, or fail on an unsupported kind. -/
def partToText : ContentPart → Except Err String
  | ContentPart.textContent t => Except.ok t
  | ContentPart.toolCall hasFn name args =>
    if hasFn then Except.ok ("[ToolCall] " ++ name ++ " " ++ args)
    else Except.ok "[ToolCall]"
  | ContentPart.toolCallResponse name content =>
    let nm := trimSpace name
    if nm = "" then Except.ok ("[ToolResult] " ++ content)
    else Except.ok ("[ToolResult:" ++ nm ++ "] " ++ content)
  | ContentPart.otherPart typeName => Except.error (Err.unsupportedPart typeName)

/-- messageToText converts a message to plain text: parts joined by a
newline; an empty part list gives the empty string; the first unsupported
part aborts with an error. -/
def messageToText (msg : MessageContent) : Except Err String :=
  if msg.Parts.isEmpty then Except.ok ""
  else (msg.Parts.mapM partToText).map (String.intercalate "\n")

/-- rolePrefixFor maps chat roles to a readable label (source name
rolePrefix). -/
def rolePrefixFor (role : String) : String :=
  if role = ChatMessageTypeHuman then "User"
  else if role = ChatMessageTypeAI then "Assistant"
  else if role = ChatMessageTypeFunction then "Function"
  else if role = ChatMessageTypeTool then "Tool"
  else if role = ChatMessageTypeGeneric then "User"
  else if role = ChatMessageTypeSystem then "System"
  else ""

/-- Recursion for splitSystemMessages: collect the text of system-role
messages (kept when non-blank) and the remaining messages in order. -/
def splitSystemAux : List MessageContent → Except Err (List String × List MessageContent)
  | [] => Except.ok ([], [])
  | msg :: rest =>
    if msg.Role = ChatMessageTypeSystem then
      match messageToText msg with
      | Except.error e => Except.error e
      | Except.ok text =>
        match splitSystemAux rest with
        | Except.error e => Except.error e
        | Except.ok (sys, others) =>
          if trimSpace text ≠ "" then Except.ok (text :: sys, others)
          else Except.ok (sys, others)
    else
      match splitSystemAux rest with
      | Except.error e => Except.error e
      | Except.ok (sys, others) => Except.ok (sys, msg :: others)

/-- splitSystemMessages extracts system messages (joined with a blank line)
and returns the remaining messages. -/
def splitSystemMessages (messages : List MessageContent) :
    Except Err (String × List MessageContent) :=
  match splitSystemAux messages with
  | Except.error e => Except.error e
  | Except.ok (sys, others) => Except.ok (String.intercalate "\n\n" sys, others)

/-- mergeSystemPrompt merges the configured system prompt with the system
text extracted from the messages. -/
def mergeSystemPrompt (base extra : String) : String :=
  let base := trimSpace base
  let extra := trimSpace extra
  if base = "" then extra
  else if extra = "" then base
  else base ++ "\n\n" ++ extra

/-- Recursion for buildPrompt: render each message, trim it, skip blanks,
attach the role label. -/
def buildPromptParts : List MessageContent → Except Err (List String)
  | [] => Except.ok []
  | msg :: rest =>
    match messageToText msg with
    | Except.error e => Except.error e
    | Except.ok text =>
      let text := trimSpace text
      match buildPromptParts rest with
      | Except.error e => Except.error e
      | Except.ok parts =>
        if text = "" then Except.ok parts
        else
          let p := rolePrefixFor msg.Role
          if p ≠ "" then Except.ok ((p ++ ": " ++ text) :: parts)
          else Except.ok (text :: parts)

/-- buildPrompt formats the non-system messages into a single prompt
string. -/
def buildPrompt (messages : List MessageContent) : Except Err String :=
  if messages.isEmpty then Except.ok ""
  else
    match buildPromptParts messages with
    | Except.error e => Except.error e
    | Except.ok parts => Except.ok (String.intercalate "\n\n" parts)

/-- Tool-use information extracted from one tool_use content block (source
type toolUseInfo). -/
structure toolUseInfo where
  ID : String
  Name : String
  Input : Option (List (String × JValue)) := none

/-- The type string of a content block: block["type"] when it is a string,
otherwise the empty string (failed Go type assertion with ignored ok). -/
def blockTypeOf (blockMap : List (String × JValue)) : String :=
  match lookupJ "type" blockMap with
  | some (JValue.str s) => s
  | _ => ""

/-- The structured input of a tool_use block: block["input"] when it is an
object (Go type assertion to a map), otherwise the nil map. -/
def blockInputOf (blockMap : List (String × JValue)) : Option (List (String × JValue)) :=
  match lookupJ "input" blockMap with
  | some (JValue.obj input) => some input
  | _ => none

/-- The loop body of extractAssistantContent over a content list: non-object
elements are skipped, text blocks contribute their non-empty text, tool_use
blocks contribute id/name/input, all in encounter order. -/
def extractBlocks : List JValue → List String × List toolUseInfo
  | [] => ([], [])
  | block :: rest =>
    let (texts, toolUses) := extractBlocks rest
    match block with
    | JValue.obj blockMap =>
      if blockTypeOf blockMap = "text" then
        let text := getStringField blockMap "text"
        if text ≠ "" then (text :: texts, toolUses) else (texts, toolUses)
      else if blockTypeOf blockMap = "tool_use" then
        let tu : toolUseInfo :=
          { ID := getStringField blockMap "id"
            Name := getStringField blockMap "name"
            Input := blockInputOf blockMap }
        (texts, tu :: toolUses)
      else (texts, toolUses)
    | _ => (texts, toolUses)

/-- extractAssistantContent extracts the text blocks and tool_use blocks of
an assistant stream line. -/
def extractAssistantContent (payload : List (String × JValue)) :
    Except Err (List String × List toolUseInfo) :=
  match lookupJ "message" payload with
  | some (JValue.obj message) =>
    match lookupJ "content" message with
    | none => Except.error Err.missingContent
    | some content =>
      match content with
      | JValue.arr blocks => Except.ok (extractBlocks blocks)
      | JValue.str s =>
        if s = "" then Except.ok ([], [])
        else Except.ok ([s], [])
      | _ => Except.error Err.unsupportedContentType
  | _ => Except.error Err.missingMessage

/-- mergeResultInfo copies the selected fields of a result line into the
generation-info map, overwriting prior values (map assignment). The Go map
is created on first use; the model receives the optional existing map. -/
def mergeResultInfo (existing : Option (List (String × JValue)))
    (payload : List (String × JValue)) : List (String × JValue) :=
  let info := existing.getD []
  let info :=
    match lookupJ "total_cost_usd" payload with
    | some v => setKey info "TotalCostUSD" v
    | none => info
  let info :=
    match lookupJ "usage" payload with
    | some v => setKey info "Usage" v
    | none => info
  let info :=
    match lookupJ "result" payload with
    | some v => setKey info "Result" v
    | none => info
  match lookupJ "structured_output" payload with
  | some v => setKey info "StructuredOutput" v
  | none => info

/-- Decimal rendering of a JSON number (environment model of the standard
library encoder; the program never produces numbers of its own). -/
def formatDecimal (m : Int) (e : Nat) : String :=
  if e = 0 then toString m
  else
    let digits := toString m.natAbs
    let digits :=
      if digits.length ≤ e then
        String.mk (List.replicate (e + 1 - digits.length) '0') ++ digits
      else digits
    (if m < 0 then "-" else "") ++
      digits.take (digits.length - e) ++ "." ++ digits.drop (digits.length - e)

/-- Escape one character for JSON string output (environment model). -/
def escapeChar (c : Char) : List Char :=
  if c = '"' then ['\\', '"']
  else if c = '\\' then ['\\', '\\']
  else if c = '\n' then ['\\', 'n']
  else [c]

/-- Quote a string for JSON output (environment model). -/
def renderString (s : String) : String :=
  "\"" ++ String.mk (s.data.flatMap escapeChar) ++ "\""

/-- Compact JSON rendering, the environment model of the standard library
MarshalIndent used only to build human-readable full-mode summaries (exact
indentation is immaterial to every verified property). -/
def renderJson : JValue → String
  | JValue.null => "null"
  | JValue.bool b => if b then "true" else "false"
  | JValue.num m e => formatDecimal m e
  | JValue.str s => renderString s
  | JValue.arr xs =>
    "[" ++ String.intercalate "," (xs.attach.map (fun x => renderJson x.1)) ++ "]"
  | JValue.obj fs =>
    "\x7b" ++
      String.intercalate ","
        (fs.attach.map (fun kv => renderString kv.1.1 ++ ":" ++ renderJson kv.1.2)) ++
      "\x7d"
decreasing_by
  · have := List.sizeOf_lt_of_mem x.2
    simp only [JValue.arr.sizeOf_spec]
    omega
  · have h1 := List.sizeOf_lt_of_mem kv.2
    have h2 : sizeOf kv.1.2 < sizeOf kv.1 := by
      obtain ⟨a, b⟩ := kv.1
      simp only [Prod.mk.sizeOf_spec]
      omega
    simp only [JValue.obj.sizeOf_spec]
    omega

/-- MarshalIndent applied to the optional tool input map: a nil map encodes
as null. -/
def renderInput : Option (List (String × JValue)) → String
  | none => "null"
  | some fields => renderJson (JValue.obj fields)

/-- String lookup in the tool input map, modelling the Go type assertion
input[key].(string): the value when present and a string. -/
def inputStr (input : Option (List (String × JValue))) (key : String) : Option String :=
  match lookupJ key (input.getD []) with
  | some (JValue.str s) => some s
  | _ => none

/-- formatToolUseSummary builds the verbose-mode one-line summary of a tool
call. Go indexes and measures strings in bytes; the model uses characters,
which coincides on ASCII and is untouched by every verified property. -/
def formatToolUseSummary (toolName : String)
    (input : Option (List (String × JValue))) : String :=
  let detail :=
    if toolName = "Read" ∨ toolName = "read_file" ∨ toolName = "view_file" then
      match inputStr input "file_path" with
      | some path => path
      | none => (inputStr input "path").getD ""
    else if toolName = "Write" ∨ toolName = "write_file" ∨ toolName = "create_file" then
      match inputStr input "file_path" with
      | some path => path
      | none => (inputStr input "path").getD ""
    else if toolName = "Bash" ∨ toolName = "run_command" ∨ toolName = "execute_command" then
      match inputStr input "command" with
      | some cmd => if cmd.length > 80 then cmd.take 77 ++ "..." else cmd
      | none => ""
    else if toolName = "TodoWrite" ∨ toolName = "task" ∨ toolName = "plan" then
      match inputStr input "todos" with
      | some todos =>
        let lines := todos.splitOn "\n"
        if lines.length > 0 then toString lines.length ++ " items" else ""
      | none => ""
    else if toolName = "Skill" ∨ toolName = "use_skill" then
      match inputStr input "skill_name" with
      | some name => name
      | none => (inputStr input "name").getD ""
    else if toolName = "Search" ∨ toolName = "grep" ∨ toolName = "find" then
      match inputStr input "query" with
      | some query => query
      | none => (inputStr input "pattern").getD ""
    else
      let pick := fun (key : String) =>
        match inputStr input key with
        | some v => if v ≠ "" then some v else none
        | none => none
      let firstHit :=
        (["path", "file", "command", "query", "name", "url"].filterMap pick).head?
      match firstHit with
      | some v => if v.length > 60 then v.take 57 ++ "..." else v
      | none => ""
  if detail ≠ "" then "\n🔧 " ++ toolName ++ ": " ++ detail ++ "\n"
  else "\n🔧 " ++ toolName ++ "\n"

/-- One recorded external interaction: an invocation of the streaming
callback with a chunk, or an invocation of the tool-event hook. -/
inductive Call where
  | streamCall (chunk : String)
  | hookCall (event : ToolEvent)

/-- The mutable state threaded through readStream: the output accumulator,
the generation-info map (nil until the first result line), and the trace of
callback invocations. -/
structure RSState where
  builder : String := ""
  genInfo : Option (List (String × JValue)) := none
  trace : List Call := []

/-- The streaming callback. Its observable behaviour per invocation is the
returned error, a function of the chunk. none means absent (Go nil). -/
abbrev StreamFn := Option (String → Option String)

/-- Whether a trace entry is a tool-event hook invocation. -/
def isHookCall : Call → Bool
  | Call.hookCall _ => true
  | _ => false

/-- Whether a trace entry is a streaming-callback invocation. -/
def isStreamCall : Call → Bool
  | Call.streamCall _ => true
  | _ => false

/-- The index of the first trace entry satisfying a predicate. -/
def firstIdxWhere (p : Call → Bool) : List Call → Option Nat
  | [] => none
  | c :: rest => if p c then some 0 else (firstIdxWhere p rest).map (fun i => i + 1)

/-- The ordering property asserted by the interleaving claim on a trace with
one tool dispatch and one text callback: the first hook dispatch occurs
strictly before the first streaming-callback invocation. -/
def hookDispatchPrecedesFirstText (trace : List Call) : Bool :=
  match firstIdxWhere isHookCall trace, firstIdxWhere isStreamCall trace with
  | some i, some j => decide (i < j)
  | _, _ => false

/-- handleToolEvent: always invoke the hook when set; in text output mode
append nothing; otherwise build a summary (by output mode and event kind),
append it to the accumulator and send it to the streaming callback, whose
error is ignored here. -/
def handleToolEvent (opts : Options) (sf : StreamFn) (event : ToolEvent)
    (st : RSState) : RSState :=
  let st :=
    if opts.hasToolEventHook then
      { st with trace := st.trace ++ [Call.hookCall event] }
    else st
  if opts.OutputMode = OutputModeText then st
  else
    let summary :=
      if event.eventType = ToolEventUse then
        if opts.OutputMode = OutputModeFull then
          "\n🔧 [" ++ event.ToolName ++ "] " ++ event.ToolID ++ "\n" ++
            renderInput event.Input ++ "\n"
        else formatToolUseSummary event.ToolName event.Input
      else if event.eventType = ToolEventResult then
        if opts.OutputMode = OutputModeFull then
          let output := event.Output
          let output :=
            if output.length > 500 then output.take 500 ++ "... (truncated)"
            else output
          "  └─ 📤 " ++ output ++ "\n"
        else ""
      else ""
    if summary ≠ "" then
      let st := { st with builder := st.builder ++ summary }
      match sf with
      | some _ => { st with trace := st.trace ++ [Call.streamCall summary] }
      | none => st
    else st

/-- One stdout line as delivered past the scanner and the JSON decoder
(environment boundary): blank after trimming (skipped), rejected by the
decoder or not an object (a parse error), or a decoded JSON object. -/
inductive StreamLine where
  | blank
  | malformed (raw : String)
  | jsonLine (payload : List (String × JValue))

/-- The text-block loop of the assistant case of readStream: invoke the
streaming callback (when set) once per block before appending the block to
the accumulator; a callback error aborts, leaving that block unappended. -/
def streamTexts (sf : StreamFn) : RSState → List String → RSState × Option Err
  | st, [] => (st, none)
  | st, text :: rest =>
    match sf with
    | none => streamTexts sf { st with builder := st.builder ++ text } rest
    | some f =>
      let st := { st with trace := st.trace ++ [Call.streamCall text] }
      match f text with
      | some e => (st, some (Err.streamCallback e))
      | none => streamTexts sf { st with builder := st.builder ++ text } rest

/-- The tool-requested event constructed from one tool_use block. -/
def toolUseEvent (tu : toolUseInfo) : ToolEvent :=
  { eventType := ToolEventUse
    ToolName := tu.Name
    ToolID := tu.ID
    Input := tu.Input
    Output := "" }

/-- One iteration of the readStream loop: classify a line by its type
discriminant and act on it. The diagnostic logging of every line is a pure
side effect and is not modelled. -/
def processLine (opts : Options) (sf : StreamFn) (st : RSState) :
    StreamLine → RSState × Option Err
  | StreamLine.blank => (st, none)
  | StreamLine.malformed raw => (st, some (Err.parseJson raw))
  | StreamLine.jsonLine payload =>
    let msgType := getStringField payload "type"
    if msgType = "assistant" then
      match extractAssistantContent payload with
      | Except.error e => (st, some e)
      | Except.ok (texts, toolUses) =>
        match streamTexts sf st texts with
        | (st, some e) => (st, some e)
        | (st, none) =>
          (toolUses.foldl (fun s tu => handleToolEvent opts sf (toolUseEvent tu) s) st,
            none)
    else if msgType = "tool_result" then
      (handleToolEvent opts sf
        { eventType := ToolEventResult
          ToolID := getStringField payload "tool_use_id"
          Output := getStringField payload "content" } st, none)
    else if msgType = "result" then
      ({ st with genInfo := some (mergeResultInfo st.genInfo payload) }, none)
    else if msgType = "" then
      (st, some (Err.cliError payload))
    else
      (st, none)

/-- The readStream scan loop: process lines in order, stopping at the first
error. -/
def processLines (opts : Options) (sf : StreamFn) :
    RSState → List StreamLine → RSState × Option Err
  | st, [] => (st, none)
  | st, line :: rest =>
    match processLine opts sf st line with
    | (st, some e) => (st, some e)
    | (st, none) => processLines opts sf st rest

/-- readStream parses the stream-json stdout: the scanned lines in order,
then the scanner error, if any (for example a line exceeding the buffer
cap), reported as a read error. -/
def readStream (opts : Options) (sf : StreamFn) (lines : List StreamLine)
    (scanErr : Option String) : RSState × Option Err :=
  match processLines opts sf {} lines with
  | (st, some e) => (st, some e)
  | (st, none) =>
    match scanErr with
    | some msg => (st, some (Err.readStdout msg))
    | none => (st, none)

/-- strings.Join with a comma. -/
def joinComma (xs : List String) : String := String.intercalate ","  xs

/-- Lexicographic order on character lists by code point — the order of
sort.Strings (bytewise UTF-8 comparison orders exactly like code points). -/
def charListLe : List Char → List Char → Bool
  | [], _ => true
  | _ :: _, [] => false
  | a :: as, b :: bs =>
    if a.toNat < b.toNat then true
    else if b.toNat < a.toNat then false
    else charListLe as bs

/-- Lexicographic string comparison for sort.Strings. -/
def stringLe (a b : String) : Bool := charListLe a.data b.data

/-- sort.Strings: lexicographic sort (any comparison sort; the result is the
unique sorted permutation). -/
def sortStrings (xs : List String) : List String :=
  List.insertionSort (fun a b => stringLe a b = true) xs

/-- Go map indexing for the extra-args map: the value of the first matching
key, the zero value when absent. -/
def lookupStr (key : String) : List (String × String) → String
  | [] => ""
  | (k, v) :: rest => if k = key then v else lookupStr key rest

/-- The arguments emitted for one extra-args key: a bare boolean flag when
the configured value is empty, a flag-value pair otherwise. -/
def extraArgEntry (ea : List (String × String)) (key : String) : List String :=
  let val := lookupStr key ea
  if val = "" then ["--" ++ key] else ["--" ++ key, val]

/-- The extra-args portion of the command: keys sorted lexicographically for
reproducibility, each emitting its flag(s). -/
def extraArgsArgs (ea : List (String × String)) : List String :=
  if ea.length > 0 then
    ((sortStrings (ea.map Prod.fst)).map (extraArgEntry ea)).flatten
  else []

/-- buildCommand builds the CLI argument vector for a single prompt (the
exec.Cmd wrapper, environment merge and logging are environment effects). -/
def buildCommandArgs (opts : Options) (prompt systemPrompt : String) : List String :=
  let args := ["--output-format", "stream-json", "--verbose"]
  let args := if systemPrompt ≠ "" then args ++ ["--system-prompt", systemPrompt] else args
  let args :=
    if opts.Tools.length > 0 then args ++ ["--tools", joinComma opts.Tools] else args
  let args :=
    if opts.AllowedTools.length > 0 then
      args ++ ["--allowedTools", joinComma opts.AllowedTools]
    else args
  let args :=
    if opts.DisallowedTools.length > 0 then
      args ++ ["--disallowedTools", joinComma opts.DisallowedTools]
    else args
  let args := if opts.Model ≠ "" then args ++ ["--model", opts.Model] else args
  let args :=
    if opts.PermissionMode ≠ "" then
      args ++ ["--permission-mode", opts.PermissionMode]
    else args
  let args := args ++ extraArgsArgs opts.ExtraArgs
  args ++ ["--print", "--", prompt]

/-- The number of occurrences of the consecutive pair (a, b) — a flag
immediately followed by its value — in an argument vector. -/
def countPair (a b : String) : List String → Nat
  | x :: y :: rest => (if x = a ∧ y = b then 1 else 0) + countPair a b (y :: rest)
  | _ => 0

/-- Whether a string starts with the two characters "--" (the shape of every
flag the command builder emits). -/
def flagPrefixed (s : String) : Bool := s.data.take 2 == ['-', '-']

/-- The argument vector as the list of blocks buildCommand appends, in
order; its flattening is the built vector. -/
def commandBlocks (opts : Options) (prompt systemPrompt : String) :
    List (List String) :=
  ["--output-format", "stream-json", "--verbose"] ::
  (if systemPrompt ≠ "" then ["--system-prompt", systemPrompt] else []) ::
  (if opts.Tools.length > 0 then ["--tools", joinComma opts.Tools] else []) ::
  (if opts.AllowedTools.length > 0 then
    ["--allowedTools", joinComma opts.AllowedTools] else []) ::
  (if opts.DisallowedTools.length > 0 then
    ["--disallowedTools", joinComma opts.DisallowedTools] else []) ::
  (if opts.Model ≠ "" then ["--model", opts.Model] else []) ::
  (if opts.PermissionMode ≠ "" then ["--permission-mode", opts.PermissionMode] else []) ::
  ((sortStrings (opts.ExtraArgs.map Prod.fst)).map (extraArgEntry opts.ExtraArgs) ++
    [["--print", "--", prompt]])

/-- One choice of the unified response. -/
structure ContentChoice where
  Content : String
  GenerationInfo : Option (List (String × JValue))

/-- The unified response returned to the caller. -/
structure ContentResponse where
  Choices : List ContentChoice

/-- The observable behaviour of the spawned subprocess for one call: the
stdout lines it emitted, the scanner-level read error if any, the exit
failure if any, and the drained stderr text. -/
structure ProcessBehavior where
  lines : List StreamLine
  scanErr : Option String := none
  waitErr : Option String := none
  stderrText : String := ""

/-- GenerateContent: split out system messages, merge the system prompt,
build and validate the prompt, run the subprocess (environment), parse its
stream, and package the response. On a stream error the process is killed
and the stderr drain joined (environment effects) and only the error is
returned; on a non-zero exit the captured stderr is attached. -/
def GenerateContent (opts : Options) (messages : List MessageContent)
    (sf : StreamFn) (proc : ProcessBehavior) : Except Err ContentResponse :=
  match splitSystemMessages messages with
  | Except.error e => Except.error e
  | Except.ok (systemFromMessages, nonSystem) =>
    let systemPrompt := mergeSystemPrompt opts.SystemPrompt systemFromMessages
    match buildPrompt nonSystem with
    | Except.error e => Except.error e
    | Except.ok prompt =>
      if trimSpace prompt = "" then Except.error Err.emptyPrompt
      else
        let _cmdArgs := buildCommandArgs opts prompt systemPrompt
        match readStream opts sf proc.lines proc.scanErr with
        | (_, some streamErr) => Except.error streamErr
        | (st, none) =>
          match proc.waitErr with
          | some we =>
            let errText := trimSpace proc.stderrText
            if errText ≠ "" then Except.error (Err.cliFailed we errText)
            else Except.error (Err.cliFailedNoStderr we)
          | none =>
            Except.ok
              { Choices := [{ Content := st.builder, GenerationInfo := st.genInfo }] }

/-! Helper lemmas shared by several claim proofs. -/

/-- In text output mode, handleToolEvent only records the hook invocation
(when the hook is set) and leaves the rest of the state alone. -/
theorem handleToolEvent_text_eq (opts : Options) (sf : StreamFn) (event : ToolEvent)
    (st : RSState) (hmode : opts.OutputMode = OutputModeText) :
    handleToolEvent opts sf event st =
      { st with
          trace := st.trace ++
            (if opts.hasToolEventHook then [Call.hookCall event] else []) } := by
  unfold handleToolEvent
  rw [hmode]
  by_cases hh : opts.hasToolEventHook <;> simp [hh]

/-- With no system-role message, splitSystemAux collects nothing and keeps
every message. -/
theorem splitSystemAux_no_system (messages : List MessageContent)
    (h : ∀ m ∈ messages, m.Role ≠ ChatMessageTypeSystem) :
    splitSystemAux messages = Except.ok ([], messages) := by
  induction messages with
  | nil => rfl
  | cons m rest ih =>
    have hm : ¬ m.Role = ChatMessageTypeSystem := h m (by simp)
    have hrest := ih (fun x hx => h x (by simp [hx]))
    simp [splitSystemAux, hm, hrest]

/-! C9. -/

/-- The max buffer size after construction: the 1 MiB default when the
applied options left it non-positive, the configured value otherwise. -/
theorem newOptions_maxBufferSize (fs : List (Options → Options)) :
    (newOptions fs).MaxBufferSize =
      if (List.foldl (fun o f => f o) defaultOptions fs).MaxBufferSize ≤ 0
      then defaultMaxBufferSize
      else (List.foldl (fun o f => f o) defaultOptions fs).MaxBufferSize := by
  unfold newOptions
  dsimp only
  split <;> split <;> simp_all

/-- C9: for every non-positive size, the max-buffer-size option leaves the
configuration unchanged; after construction the effective max buffer size is
strictly positive, and it is exactly the 1 MiB default whenever the applied
options left it non-positive (in particular unset). -/
theorem c9_maxBufferSize_invariant (size : Int) (o : Options)
    (fs : List (Options → Options)) (hsize : size ≤ 0) :
    WithMaxBufferSize size o = o ∧
    0 < (newOptions fs).MaxBufferSize ∧
    ((List.foldl (fun o f => f o) defaultOptions fs).MaxBufferSize ≤ 0 →
      (newOptions fs).MaxBufferSize = defaultMaxBufferSize) := by
  refine ⟨?_, ?_, ?_⟩
  · unfold WithMaxBufferSize
    rw [if_neg (by omega)]
  · by_cases hb : (List.foldl (fun o f => f o) defaultOptions fs).MaxBufferSize ≤ 0
    · rw [newOptions_maxBufferSize fs, if_pos hb]
      decide
    · rw [newOptions_maxBufferSize fs, if_neg hb]
      exact not_le.mp hb
  · intro hnp
    rw [newOptions_maxBufferSize fs, if_pos hnp]

/-- C9 witness at size -3 and an empty option list. -/
theorem c9_maxBufferSize_invariant_witness :
    WithMaxBufferSize (-3) defaultOptions = defaultOptions ∧
    0 < (newOptions []).MaxBufferSize ∧
    ((List.foldl (fun o f => f o) defaultOptions
        ([] : List (Options → Options))).MaxBufferSize ≤ 0 →
      (newOptions []).MaxBufferSize = defaultMaxBufferSize) :=
  c9_maxBufferSize_invariant (-3) defaultOptions [] (by decide)

/-! C5. -/

/-- C5: with text-only output mode, a tool event leaves the accumulated
output text (and the generation info) unchanged and the streaming callback
is not invoked — the trace gains no streamCall entry — while the tool event
hook, when set, is invoked exactly once for the event. -/
theorem c5_toolEvent_textMode_gating (opts : Options) (sf : StreamFn)
    (event : ToolEvent) (st : RSState) (hmode : opts.OutputMode = OutputModeText) :
    (handleToolEvent opts sf event st).builder = st.builder ∧
    (handleToolEvent opts sf event st).genInfo = st.genInfo ∧
    (opts.hasToolEventHook = true →
      (handleToolEvent opts sf event st).trace = st.trace ++ [Call.hookCall event]) ∧
    (opts.hasToolEventHook = false →
      (handleToolEvent opts sf event st).trace = st.trace) := by
  rw [handleToolEvent_text_eq opts sf event st hmode]
  refine ⟨rfl, rfl, ?_, ?_⟩ <;> intro hh <;> simp [hh]

/-- C5 witness: a concrete tool-requested event in text mode with the hook
set. -/
theorem c5_toolEvent_textMode_gating_witness :
    (handleToolEvent { defaultOptions with hasToolEventHook := true }
        (some (fun _ => none))
        { eventType := ToolEventUse, ToolName := "Read", ToolID := "id1" }
        {}).builder = RSState.builder {} ∧
    (handleToolEvent { defaultOptions with hasToolEventHook := true }
        (some (fun _ => none))
        { eventType := ToolEventUse, ToolName := "Read", ToolID := "id1" }
        {}).genInfo = RSState.genInfo {} ∧
    (Options.hasToolEventHook { defaultOptions with hasToolEventHook := true } = true →
      (handleToolEvent { defaultOptions with hasToolEventHook := true }
          (some (fun _ => none))
          { eventType := ToolEventUse, ToolName := "Read", ToolID := "id1" }
          {}).trace = RSState.trace {} ++
        [Call.hookCall { eventType := ToolEventUse, ToolName := "Read", ToolID := "id1" }]) ∧
    (Options.hasToolEventHook { defaultOptions with hasToolEventHook := true } = false →
      (handleToolEvent { defaultOptions with hasToolEventHook := true }
          (some (fun _ => none))
          { eventType := ToolEventUse, ToolName := "Read", ToolID := "id1" }
          {}).trace = RSState.trace {}) :=
  c5_toolEvent_textMode_gating { defaultOptions with hasToolEventHook := true }
    (some (fun _ => none))
    { eventType := ToolEventUse, ToolName := "Read", ToolID := "id1" } {} rfl

/-! C4. -/

/-- C4: a decoded JSON line whose type discriminant is absent or the empty
string makes the parser stop at that line and return a terminal CLI error
carrying the raw payload, regardless of any other fields; a non-empty
unrecognized discriminant is silently ignored and parsing continues. -/
theorem c4_empty_discriminant_terminal (opts : Options) (sf : StreamFn)
    (st : RSState) (payload payload2 : List (String × JValue))
    (rest : List StreamLine) (s : String)
    (hempty : lookupJ "type" payload = none ∨
      lookupJ "type" payload = some (JValue.str "")) :
    processLine opts sf st (StreamLine.jsonLine payload) =
      (st, some (Err.cliError payload)) ∧
    processLines opts sf st (StreamLine.jsonLine payload :: rest) =
      (st, some (Err.cliError payload)) ∧
    (s ≠ "" → s ∉ (["assistant", "tool_result", "result"] : List String) →
      lookupJ "type" payload2 = some (JValue.str s) →
      processLine opts sf st (StreamLine.jsonLine payload2) = (st, none)) := by
  have htype : getStringField payload "type" = "" := by
    unfold getStringField
    rcases hempty with h | h <;> rw [h]
  refine ⟨?_, ?_, ?_⟩
  · simp [processLine, htype]
  · simp [processLines, processLine, htype]
  · intro hs hmem htype2
    have ht2 : getStringField payload2 "type" = s := by
      unfold getStringField
      rw [htype2]
    simp only [List.mem_cons, List.mem_singleton, not_or] at hmem
    obtain ⟨h1, h2, h3⟩ := hmem
    simp [processLine, ht2, h1, h2, h3, hs]

/-- C4 witness: a payload with no type field, and the ignored discriminant
"system". -/
theorem c4_empty_discriminant_terminal_witness :
    processLine defaultOptions none {} (StreamLine.jsonLine [("x", JValue.null)]) =
      ({}, some (Err.cliError [("x", JValue.null)])) ∧
    processLines defaultOptions none {}
        (StreamLine.jsonLine [("x", JValue.null)] :: [StreamLine.blank]) =
      ({}, some (Err.cliError [("x", JValue.null)])) ∧
    (("system" : String) ≠ "" →
      ("system" : String) ∉ (["assistant", "tool_result", "result"] : List String) →
      lookupJ "type" [("type", JValue.str "system")] = some (JValue.str "system") →
      processLine defaultOptions none {}
          (StreamLine.jsonLine [("type", JValue.str "system")]) = ({}, none)) :=
  c4_empty_discriminant_terminal defaultOptions none {} [("x", JValue.null)]
    [("type", JValue.str "system")] [StreamLine.blank] "system" (Or.inl rfl)

/-! C3. -/

/-- C3 counterexample: with no system messages the extracted system text is
empty, but for the configured base prompt " B " (with surrounding white
space) the merged system prompt is "B", not the base verbatim: the merge
trims the base. -/
theorem c3_verbatim_counterexample :
    splitSystemMessages [] = Except.ok ("", []) ∧
    mergeSystemPrompt " B " "" ≠ " B " := by
  refine ⟨rfl, ?_⟩
  decide

/-- C3 amended: for every message sequence with no system-role message the
extracted system text is empty and the messages pass through unchanged, and
the merged system prompt is the configured base prompt with leading and
trailing white space trimmed (hence the base verbatim exactly when the base
carries no surrounding white space). -/
theorem c3_no_system_merge (base : String) (messages : List MessageContent)
    (hnosys : ∀ m ∈ messages, m.Role ≠ ChatMessageTypeSystem) :
    splitSystemMessages messages = Except.ok ("", messages) ∧
    mergeSystemPrompt base "" = trimSpace base := by
  constructor
  · rw [splitSystemMessages, splitSystemAux_no_system messages hnosys]
    rfl
  · have h0 : trimSpace "" = "" := rfl
    by_cases h : trimSpace base = "" <;> simp [mergeSystemPrompt, h, h0]

/-- C3 witness: one human message and the base prompt "B". -/
theorem c3_no_system_merge_witness :
    splitSystemMessages [MessageContent.mk ChatMessageTypeHuman
        [ContentPart.textContent "hi"]] =
      Except.ok ("", [MessageContent.mk ChatMessageTypeHuman
        [ContentPart.textContent "hi"]]) ∧
    mergeSystemPrompt "B" "" = trimSpace "B" :=
  c3_no_system_merge "B"
    [MessageContent.mk ChatMessageTypeHuman [ContentPart.textContent "hi"]]
    (by intro m hm; simp at hm; subst hm; decide)

/-! C2. -/

/-- C2: whenever stream parsing fails — whatever the stream error is — the
multi-message generation call returns only the error value: the response
(with the partial text accumulated in the state) is discarded. -/
theorem c2_stream_error_discards_text (opts : Options)
    (messages : List MessageContent) (sf : StreamFn) (proc : ProcessBehavior)
    (sysText : String) (nonSystem : List MessageContent) (prompt : String)
    (st : RSState) (e : Err)
    (hsplit : splitSystemMessages messages = Except.ok (sysText, nonSystem))
    (hprompt : buildPrompt nonSystem = Except.ok prompt)
    (hne : trimSpace prompt ≠ "")
    (hstream : readStream opts sf proc.lines proc.scanErr = (st, some e)) :
    GenerateContent opts messages sf proc = Except.error e := by
  unfold GenerateContent
  rw [hsplit]
  dsimp only
  rw [hprompt]
  dsimp only
  rw [if_neg hne, hstream]

/-- C2 witness: a malformed line in the stream of a one-message call. -/
theorem c2_stream_error_discards_text_witness :
    GenerateContent defaultOptions
        [MessageContent.mk ChatMessageTypeHuman [ContentPart.textContent "hi"]]
        none { lines := [StreamLine.malformed "oops"] } =
      Except.error (Err.parseJson "oops") :=
  c2_stream_error_discards_text defaultOptions
    [MessageContent.mk ChatMessageTypeHuman [ContentPart.textContent "hi"]]
    none { lines := [StreamLine.malformed "oops"] }
    "" [MessageContent.mk ChatMessageTypeHuman [ContentPart.textContent "hi"]]
    "User: hi" {} (Err.parseJson "oops") rfl rfl (by decide) rfl

/-! C10. -/

/-- Assistant content extraction on a list-shaped content field always
succeeds, with the block loop result. -/
theorem extractAssistantContent_arr (payload message : List (String × JValue))
    (blocks : List JValue)
    (hmsg : lookupJ "message" payload = some (JValue.obj message))
    (hcontent : lookupJ "content" message = some (JValue.arr blocks)) :
    extractAssistantContent payload = Except.ok (extractBlocks blocks) := by
  unfold extractAssistantContent
  rw [hmsg]
  dsimp only
  rw [hcontent]

/-- C10: for list-shaped assistant content, extraction never errors;
non-object list elements are skipped; a text block whose text field is
missing, non-string or empty contributes nothing; a tool_use block with
missing or non-string id and name fields yields a tool-use record carrying
empty strings rather than failing. -/
theorem c10_list_content_never_errors :
    (∀ payload message blocks,
      lookupJ "message" payload = some (JValue.obj message) →
      lookupJ "content" message = some (JValue.arr blocks) →
      extractAssistantContent payload = Except.ok (extractBlocks blocks)) ∧
    (∀ block rest, (∀ bm, block ≠ JValue.obj bm) →
      extractBlocks (block :: rest) = extractBlocks rest) ∧
    (∀ bm rest, blockTypeOf bm = "text" → getStringField bm "text" = "" →
      extractBlocks (JValue.obj bm :: rest) = extractBlocks rest) ∧
    (∀ bm rest, blockTypeOf bm = "tool_use" → getStringField bm "id" = "" →
      getStringField bm "name" = "" →
      extractBlocks (JValue.obj bm :: rest) =
        ((extractBlocks rest).1,
          toolUseInfo.mk "" "" (blockInputOf bm) :: (extractBlocks rest).2)) := by
  refine ⟨extractAssistantContent_arr, ?_, ?_, ?_⟩
  · intro block rest h
    cases block with
    | obj bm => exact absurd rfl (h bm)
    | null => simp [extractBlocks]
    | bool b => simp [extractBlocks]
    | num m e => simp [extractBlocks]
    | str s => simp [extractBlocks]
    | arr xs => simp [extractBlocks]
  · intro bm rest htype htext
    simp [extractBlocks, htype, htext]
  · intro bm rest htype hid hname
    simp [extractBlocks, htype, hid, hname]

/-- C10 witness: list content with a non-object element, a text block with
no text field, and a tool_use block with no id/name fields. -/
theorem c10_list_content_never_errors_witness :
    extractAssistantContent
        [("message", JValue.obj [("content", JValue.arr [JValue.str "s"])])] =
      Except.ok (extractBlocks [JValue.str "s"]) ∧
    extractBlocks (JValue.null :: []) = extractBlocks [] ∧
    extractBlocks (JValue.obj [("type", JValue.str "text")] :: []) =
      extractBlocks [] ∧
    extractBlocks (JValue.obj [("type", JValue.str "tool_use")] :: []) =
      ((extractBlocks []).1,
        toolUseInfo.mk "" "" (blockInputOf [("type", JValue.str "tool_use")]) ::
          (extractBlocks []).2) :=
  ⟨c10_list_content_never_errors.1 _ _ _ rfl rfl,
   c10_list_content_never_errors.2.1 _ _ (fun _ h => JValue.noConfusion h),
   c10_list_content_never_errors.2.2.1 _ _ rfl rfl,
   c10_list_content_never_errors.2.2.2 _ _ rfl rfl rfl⟩

/-! C6. -/

/-- Looking up a key just set yields the set value. -/
theorem lookupJ_setKey_self (m : List (String × JValue)) (key : String) (v : JValue) :
    lookupJ key (setKey m key v) = some v := by
  induction m with
  | nil => simp [setKey, lookupJ]
  | cons kv rest ih =>
    obtain ⟨k, w⟩ := kv
    by_cases h : k = key
    · simp [setKey, h, lookupJ]
    · simp [setKey, h, lookupJ, ih]

/-- Setting a different key does not change a lookup. -/
theorem lookupJ_setKey_ne (key key2 : String) (h : key ≠ key2)
    (m : List (String × JValue)) (v : JValue) :
    lookupJ key (setKey m key2 v) = lookupJ key m := by
  induction m with
  | nil => simp [setKey, lookupJ, Ne.symm h]
  | cons kv rest ih =>
    obtain ⟨k, w⟩ := kv
    by_cases hk : k = key2
    · subst hk
      simp [setKey, lookupJ, Ne.symm h]
    · simp [setKey, hk, lookupJ, ih]

/-- C6: the synthetic round trip — one assistant line with a single "hi"
text block then one result line carrying total_cost_usd 0.01 — aggregates
the text "hi" and a metadata map holding the cost value unmodified; with two
result lines carrying the field, the later value is retained; and in
general the value merged for total_cost_usd is exactly the one on the
payload, overwriting any prior value. -/
theorem c6_round_trip_last_result_wins :
    readStream defaultOptions none
        [StreamLine.jsonLine [("type", JValue.str "assistant"),
           ("message", JValue.obj [("content", JValue.arr
             [JValue.obj [("type", JValue.str "text"), ("text", JValue.str "hi")]])])],
         StreamLine.jsonLine [("type", JValue.str "result"),
           ("total_cost_usd", JValue.num 1 2)]] none =
      ({ builder := "hi", genInfo := some [("TotalCostUSD", JValue.num 1 2)],
          trace := [] }, none) ∧
    readStream defaultOptions none
        [StreamLine.jsonLine [("type", JValue.str "result"),
           ("total_cost_usd", JValue.num 1 2)],
         StreamLine.jsonLine [("type", JValue.str "result"),
           ("total_cost_usd", JValue.num 2 2)]] none =
      ({ builder := "", genInfo := some [("TotalCostUSD", JValue.num 2 2)],
          trace := [] }, none) ∧
    (∀ existing payload v, lookupJ "total_cost_usd" payload = some v →
      lookupJ "TotalCostUSD" (mergeResultInfo existing payload) = some v) := by
  refine ⟨rfl, rfl, ?_⟩
  intro existing payload v h
  unfold mergeResultInfo
  rw [h]
  dsimp only
  have base := lookupJ_setKey_self (existing.getD []) "TotalCostUSD" v
  cases hu : lookupJ "usage" payload <;>
    cases hr : lookupJ "result" payload <;>
      cases hs : lookupJ "structured_output" payload <;>
        simp [lookupJ_setKey_ne "TotalCostUSD" "Usage" (by decide),
          lookupJ_setKey_ne "TotalCostUSD" "Result" (by decide),
          lookupJ_setKey_ne "TotalCostUSD" "StructuredOutput" (by decide), base]

/-- C6 witness: the overwrite law applied to a concrete result payload. -/
theorem c6_round_trip_last_result_wins_witness :
    lookupJ "TotalCostUSD"
        (mergeResultInfo (some [("TotalCostUSD", JValue.num 1 2)])
          [("total_cost_usd", JValue.num 2 2)]) = some (JValue.num 2 2) :=
  c6_round_trip_last_result_wins.2.2 (some [("TotalCostUSD", JValue.num 1 2)])
    [("total_cost_usd", JValue.num 2 2)] (JValue.num 2 2) rfl

/-! C1. -/

/-- When the streaming callback never errors, the text loop invokes it once
per block in order and appends every block. -/
theorem streamTexts_no_error (f : String → Option String) (hf : ∀ s, f s = none) :
    ∀ (texts : List String) (st : RSState),
      streamTexts (some f) st texts =
        ({ st with
            builder := texts.foldl (fun b t => b ++ t) st.builder,
            trace := st.trace ++ texts.map Call.streamCall }, none) := by
  intro texts
  induction texts with
  | nil => intro st; simp [streamTexts]
  | cons t ts ih =>
    intro st
    simp [streamTexts, hf t, ih, List.append_assoc]

/-- In text mode with the hook set, folding the tool events appends exactly
one hook dispatch per tool_use, in order. -/
theorem foldl_handleToolEvent_text (opts : Options) (sf : StreamFn)
    (hmode : opts.OutputMode = OutputModeText) (hhook : opts.hasToolEventHook = true) :
    ∀ (tus : List toolUseInfo) (st : RSState),
      tus.foldl (fun s tu => handleToolEvent opts sf (toolUseEvent tu) s) st =
        { st with
            trace := st.trace ++
              tus.map (fun tu => Call.hookCall (toolUseEvent tu)) } := by
  intro tus
  induction tus with
  | nil => intro st; simp
  | cons tu tus ih =>
    intro st
    rw [List.foldl_cons, handleToolEvent_text_eq opts sf (toolUseEvent tu) st hmode, ih]
    simp [hhook, List.append_assoc]

/-- C1 counterexample: an assistant line whose content list holds a tool_use
block before a text block. The claim asserts the tool dispatch happens
before the text callback; the computed trace shows the text callback first,
so the asserted precedence is false at this input. -/
theorem c1_interleaving_counterexample :
    hookDispatchPrecedesFirstText
        ((readStream { defaultOptions with hasToolEventHook := true }
            (some (fun _ => none))
            [StreamLine.jsonLine
              [("type", JValue.str "assistant"),
               ("message", JValue.obj [("content", JValue.arr
                 [JValue.obj [("type", JValue.str "tool_use"),
                    ("id", JValue.str "i1"), ("name", JValue.str "t1")],
                  JValue.obj [("type", JValue.str "text"),
                    ("text", JValue.str "T")]])])]]
            none).1.trace) = false := rfl

/-- C1 amended: for an assistant line with list content (text-only output
mode, hook set, callback present and never failing), the streaming callbacks
for the text blocks all happen first, in encounter order among themselves,
and the tool-requested dispatches follow, in encounter order among
themselves: handling is not interleaved in content-list order. -/
theorem c1_texts_stream_before_tool_dispatches (opts : Options)
    (f : String → Option String) (st : RSState)
    (payload message : List (String × JValue)) (blocks : List JValue)
    (hmode : opts.OutputMode = OutputModeText)
    (hhook : opts.hasToolEventHook = true)
    (hf : ∀ s, f s = none)
    (htype : getStringField payload "type" = "assistant")
    (hmsg : lookupJ "message" payload = some (JValue.obj message))
    (hcontent : lookupJ "content" message = some (JValue.arr blocks)) :
    processLine opts (some f) st (StreamLine.jsonLine payload) =
      ({ st with
          builder := (extractBlocks blocks).1.foldl (fun b t => b ++ t) st.builder,
          trace := st.trace ++ (extractBlocks blocks).1.map Call.streamCall ++
            (extractBlocks blocks).2.map (fun tu => Call.hookCall (toolUseEvent tu)) },
        none) := by
  have hextract := extractAssistantContent_arr payload message blocks hmsg hcontent
  simp [processLine, htype, hextract, streamTexts_no_error f hf,
    foldl_handleToolEvent_text opts (some f) hmode hhook, List.append_assoc]

/-- C1 amended witness: a text block followed by a tool_use block. -/
theorem c1_texts_stream_before_tool_dispatches_witness :
    processLine { defaultOptions with hasToolEventHook := true }
        (some (fun _ => none)) {}
        (StreamLine.jsonLine
          [("type", JValue.str "assistant"),
           ("message", JValue.obj [("content", JValue.arr
             [JValue.obj [("type", JValue.str "text"), ("text", JValue.str "T")],
              JValue.obj [("type", JValue.str "tool_use"),
                ("id", JValue.str "i1"), ("name", JValue.str "t1")]])])]) =
      ({ ({} : RSState) with
          builder :=
            (extractBlocks
              [JValue.obj [("type", JValue.str "text"), ("text", JValue.str "T")],
               JValue.obj [("type", JValue.str "tool_use"),
                 ("id", JValue.str "i1"), ("name", JValue.str "t1")]]).1.foldl
              (fun b t => b ++ t) (RSState.builder {}),
          trace := RSState.trace {} ++
            (extractBlocks
              [JValue.obj [("type", JValue.str "text"), ("text", JValue.str "T")],
               JValue.obj [("type", JValue.str "tool_use"),
                 ("id", JValue.str "i1"), ("name", JValue.str "t1")]]).1.map
              Call.streamCall ++
            (extractBlocks
              [JValue.obj [("type", JValue.str "text"), ("text", JValue.str "T")],
               JValue.obj [("type", JValue.str "tool_use"),
                 ("id", JValue.str "i1"), ("name", JValue.str "t1")]]).2.map
              (fun tu => Call.hookCall (toolUseEvent tu)) },
        none) :=
  c1_texts_stream_before_tool_dispatches
    { defaultOptions with hasToolEventHook := true } (fun _ => none) {}
    [("type", JValue.str "assistant"),
     ("message", JValue.obj [("content", JValue.arr
       [JValue.obj [("type", JValue.str "text"), ("text", JValue.str "T")],
        JValue.obj [("type", JValue.str "tool_use"),
          ("id", JValue.str "i1"), ("name", JValue.str "t1")]])])]
    [("content", JValue.arr
      [JValue.obj [("type", JValue.str "text"), ("text", JValue.str "T")],
       JValue.obj [("type", JValue.str "tool_use"),
         ("id", JValue.str "i1"), ("name", JValue.str "t1")]])]
    [JValue.obj [("type", JValue.str "text"), ("text", JValue.str "T")],
     JValue.obj [("type", JValue.str "tool_use"),
       ("id", JValue.str "i1"), ("name", JValue.str "t1")]]
    rfl rfl (fun _ => rfl) rfl rfl rfl

/-! C8. -/

/-- The sort comparison is total. -/
theorem charListLe_total : ∀ as bs, charListLe as bs = true ∨ charListLe bs as = true := by
  intro as
  induction as with
  | nil => intro bs; left; rfl
  | cons a as ih =>
    intro bs
    cases bs with
    | nil => right; rfl
    | cons b bs =>
      by_cases hab : a.toNat < b.toNat
      · left
        simp [charListLe, hab]
      · by_cases hba : b.toNat < a.toNat
        · right
          simp [charListLe, hba]
        · rcases ih bs with h | h
          · left
            simp [charListLe, hab, hba, h]
          · right
            simp [charListLe, hab, hba, h]

/-- The sort comparison is transitive. -/
theorem charListLe_trans : ∀ as bs cs, charListLe as bs = true →
    charListLe bs cs = true → charListLe as cs = true := by
  intro as
  induction as with
  | nil => intro bs cs h1 h2; rfl
  | cons a as ih =>
    intro bs cs h1 h2
    cases bs with
    | nil => simp [charListLe] at h1
    | cons b bs =>
      cases cs with
      | nil => simp [charListLe] at h2
      | cons c cs =>
        by_cases hab : a.toNat < b.toNat
        · by_cases hbc : b.toNat < c.toNat
          · have hac : a.toNat < c.toNat := Nat.lt_trans hab hbc
            simp [charListLe, hac]
          · by_cases hcb : c.toNat < b.toNat
            · simp [charListLe, hbc, hcb] at h2
            · have hac : a.toNat < c.toNat := by omega
              simp [charListLe, hac]
        · by_cases hba : b.toNat < a.toNat
          · simp [charListLe, hab, hba] at h1
          · by_cases hbc : b.toNat < c.toNat
            · have hac : a.toNat < c.toNat := by omega
              simp [charListLe, hac]
            · by_cases hcb : c.toNat < b.toNat
              · simp [charListLe, hbc, hcb] at h2
              · have hac1 : ¬ a.toNat < c.toNat := by omega
                have hac2 : ¬ c.toNat < a.toNat := by omega
                have h1r : charListLe as bs = true := by
                  simpa [charListLe, hab, hba] using h1
                have h2r : charListLe bs cs = true := by
                  simpa [charListLe, hbc, hcb] using h2
                simp [charListLe, hac1, hac2, ih bs cs h1r h2r]

/-- The sort comparison is antisymmetric. -/
theorem charListLe_antisymm : ∀ as bs, charListLe as bs = true →
    charListLe bs as = true → as = bs := by
  intro as
  induction as with
  | nil =>
    intro bs h1 h2
    cases bs with
    | nil => rfl
    | cons b bs => simp [charListLe] at h2
  | cons a as ih =>
    intro bs h1 h2
    cases bs with
    | nil => simp [charListLe] at h1
    | cons b bs =>
      by_cases hab : a.toNat < b.toNat
      · have hba : ¬ b.toNat < a.toNat := by omega
        simp [charListLe, hab, hba] at h2
      · by_cases hba : b.toNat < a.toNat
        · simp [charListLe, hab, hba] at h1
        · have hnum : a.toNat = b.toNat := by omega
          have hchar : a = b := by
            have hv : a.val.toNat = b.val.toNat := hnum
            exact Char.eq_of_val_eq (UInt32.eq_of_val_eq (Fin.eq_of_val_eq hv))
          have h1r : charListLe as bs = true := by
            simpa [charListLe, hab, hba] using h1
          have h2r : charListLe bs as = true := by
            simpa [charListLe, hab, hba] using h2
          rw [hchar, ih bs h1r h2r]

instance : IsTotal String (fun a b => stringLe a b = true) :=
  ⟨fun a b => charListLe_total a.data b.data⟩

instance : IsTrans String (fun a b => stringLe a b = true) :=
  ⟨fun a b c => charListLe_trans a.data b.data c.data⟩

instance : IsAntisymm String (fun a b => stringLe a b = true) :=
  ⟨fun a b h1 h2 => by
    have hd := charListLe_antisymm a.data b.data h1 h2
    cases a
    cases b
    exact congrArg String.mk hd⟩

/-- With distinct keys, Go map indexing is invariant under reordering of the
association list (iteration order). -/
theorem lookupStr_of_perm (k : String) {l₁ l₂ : List (String × String)}
    (p : l₁.Perm l₂) : (l₁.map Prod.fst).Nodup → lookupStr k l₁ = lookupStr k l₂ := by
  induction p with
  | nil => intro _; rfl
  | cons x p ih =>
    intro hnd
    obtain ⟨a, b⟩ := x
    simp only [List.map_cons, List.nodup_cons] at hnd
    by_cases h : a = k
    · simp [lookupStr, h]
    · simp [lookupStr, h, ih hnd.2]
  | swap x y l =>
    intro hnd
    obtain ⟨a, b⟩ := x
    obtain ⟨c, d⟩ := y
    simp only [List.map_cons, List.nodup_cons, List.mem_cons] at hnd
    by_cases hc : c = k <;> by_cases ha : a = k
    · exact absurd (Or.inl (hc.trans ha.symm)) hnd.1
    · simp [lookupStr, hc, ha]
    · simp [lookupStr, hc, ha]
    · simp [lookupStr, hc, ha]
  | trans p1 p2 ih1 ih2 =>
    intro hnd
    exact (ih1 hnd).trans (ih2 ((p1.map Prod.fst).nodup hnd))

/-- The emitted extra flags depend only on the key-value mapping, not on the
iteration order of the map. -/
theorem extraArgsArgs_perm (ea₁ ea₂ : List (String × String))
    (hnd : (ea₁.map Prod.fst).Nodup) (p : ea₁.Perm ea₂) :
    extraArgsArgs ea₁ = extraArgsArgs ea₂ := by
  have hkeys : sortStrings (ea₁.map Prod.fst) = sortStrings (ea₂.map Prod.fst) :=
    List.eq_of_perm_of_sorted
      ((List.perm_insertionSort _ _).trans
        ((p.map Prod.fst).trans (List.perm_insertionSort _ _).symm))
      (List.sorted_insertionSort _ _) (List.sorted_insertionSort _ _)
  have hentry : extraArgEntry ea₁ = extraArgEntry ea₂ := by
    funext key
    unfold extraArgEntry
    rw [lookupStr_of_perm key p hnd]
  unfold extraArgsArgs
  rw [hkeys, hentry, p.length_eq]

/-- C8: for every extra-args mapping (distinct keys), the emitted extra
flags are the same for every iteration order and the emitted keys are in
lexicographically sorted order; a key with empty configured value emits a
bare boolean flag and any other key a flag-value pair; in particular the
mapping with z to 1 and a to empty emits, in either order, exactly
--a --z 1. -/
theorem c8_extraArgs_sorted_deterministic :
    (∀ ea₁ ea₂ : List (String × String),
      (ea₁.map Prod.fst).Nodup → ea₁.Perm ea₂ →
      extraArgsArgs ea₁ = extraArgsArgs ea₂) ∧
    (∀ ea : List (String × String),
      List.Sorted (fun a b => stringLe a b = true) (sortStrings (ea.map Prod.fst))) ∧
    (∀ (ea : List (String × String)) (k : String),
      lookupStr k ea = "" → extraArgEntry ea k = ["--" ++ k]) ∧
    (∀ (ea : List (String × String)) (k : String),
      lookupStr k ea ≠ "" → extraArgEntry ea k = ["--" ++ k, lookupStr k ea]) ∧
    extraArgsArgs [("z", "1"), ("a", "")] = ["--a", "--z", "1"] ∧
    extraArgsArgs [("a", ""), ("z", "1")] = ["--a", "--z", "1"] := by
  refine ⟨fun ea₁ ea₂ hnd p => extraArgsArgs_perm ea₁ ea₂ hnd p,
    fun ea => List.sorted_insertionSort _ _, ?_, ?_, rfl, rfl⟩
  · intro ea k h
    simp [extraArgEntry, h]
  · intro ea k h
    simp [extraArgEntry, h]

/-- C8 witness: the two iteration orders of the example mapping emit the
same flags. -/
theorem c8_extraArgs_sorted_deterministic_witness :
    extraArgsArgs [("z", "1"), ("a", "")] = extraArgsArgs [("a", ""), ("z", "1")] :=
  c8_extraArgs_sorted_deterministic.1 [("z", "1"), ("a", "")]
    [("a", ""), ("z", "1")] (by decide) (by decide)

/-! C7. -/

/-- Pair counting distributes over an append whose right part does not start
with the value b. -/
theorem countPair_append (a b : String) (ys : List String)
    (h : ∀ y, ys.head? = some y → y ≠ b) :
    ∀ xs, countPair a b (xs ++ ys) = countPair a b xs + countPair a b ys := by
  intro xs
  induction xs with
  | nil => simp [countPair]
  | cons x xs ih =>
    cases xs with
    | nil =>
      cases ys with
      | nil => simp [countPair]
      | cons y ys2 =>
        have hy : ¬ (x = a ∧ y = b) := fun hxy => h y rfl hxy.2
        simp [countPair, hy]
    | cons x2 xs2 =>
      have ih2 := ih
      simp only [List.cons_append] at ih2 ⊢
      rw [countPair, countPair, ih2]
      omega

/-- The head of a flattened block list is the head of one of its blocks. -/
theorem flatten_head_mem : ∀ (bs : List (List String)) (y : String),
    bs.flatten.head? = some y → ∃ blk ∈ bs, blk.head? = some y := by
  intro bs
  induction bs with
  | nil => intro y h; simp at h
  | cons blk bs ih =>
    intro y h
    cases blk with
    | nil =>
      simp only [List.flatten_cons, List.nil_append] at h
      obtain ⟨blk2, hmem, hh⟩ := ih y h
      exact ⟨blk2, List.mem_cons_of_mem _ hmem, hh⟩
    | cons z zs =>
      simp only [List.flatten_cons, List.cons_append, List.head?_cons] at h
      exact ⟨z :: zs, List.mem_cons_self _ _, by simpa using h⟩

/-- When every non-empty block opens with a flag-shaped string and b is not
flag shaped, pair occurrences never straddle a block boundary: counting the
flattening is summing the per-block counts. -/
theorem countPair_flatten (a b : String) (hb : flagPrefixed b = false) :
    ∀ bs : List (List String),
      (∀ blk ∈ bs, ∀ y, blk.head? = some y → flagPrefixed y = true) →
      countPair a b bs.flatten = (bs.map (countPair a b)).sum := by
  intro bs
  induction bs with
  | nil => intro _; rfl
  | cons blk bs ih =>
    intro hheads
    have hrest : ∀ blk2 ∈ bs, ∀ y, blk2.head? = some y → flagPrefixed y = true :=
      fun blk2 hm y hy => hheads blk2 (List.mem_cons_of_mem _ hm) y hy
    have hys : ∀ y, (bs.flatten).head? = some y → y ≠ b := by
      intro y hy heq
      obtain ⟨blk2, hm, hh⟩ := flatten_head_mem bs y hy
      have hflag := hrest blk2 hm y hh
      rw [heq, hb] at hflag
      cases hflag
    simp only [List.flatten_cons]
    rw [countPair_append a b bs.flatten hys blk, ih hrest]
    simp

/-- An applied conditional append, as the command builder writes it, equals
appending a conditional block. -/
theorem append_ite_list (c : Prop) [Decidable c] (l x : List String) :
    (if c then l ++ x else l) = l ++ (if c then x else []) := by
  split <;> simp

/-- The extra-args arguments are the flattening of the per-key blocks. -/
theorem extraArgsArgs_eq_flatten (ea : List (String × String)) :
    extraArgsArgs ea =
      ((sortStrings (ea.map Prod.fst)).map (extraArgEntry ea)).flatten := by
  cases ea with
  | nil => rfl
  | cons kv rest => simp [extraArgsArgs]

/-- The built argument vector is the flattening of its block list. -/
theorem buildCommandArgs_blocks (opts : Options) (prompt systemPrompt : String) :
    buildCommandArgs opts prompt systemPrompt =
      (commandBlocks opts prompt systemPrompt).flatten := by
  unfold buildCommandArgs commandBlocks
  rw [extraArgsArgs_eq_flatten]
  simp only [append_ite_list]
  simp only [List.flatten_cons, List.flatten_append, List.flatten_nil,
    List.append_nil, List.append_assoc]

/-- A pair count in a two-element block whose first element is not the
sought flag is zero. -/
theorem countPair_two_ne (a b f v : String) (hf : f ≠ a) :
    countPair a b [f, v] = 0 := by
  simp [countPair, hf]

/-- A pair count in an optional two-element block whose flag is not the
sought one is zero. -/
theorem countPair_opt_flag (a b f v : String) (c : Prop) [Decidable c]
    (hf : f ≠ a) : countPair a b (if c then [f, v] else []) = 0 := by
  split
  · exact countPair_two_ne a b f v hf
  · rfl

/-- A pair count in the terminal print block is zero whenever neither
"--print" nor "--" is the sought flag. -/
theorem countPair_three_ne (a b x y z : String) (hx : x ≠ a) (hy : y ≠ a) :
    countPair a b [x, y, z] = 0 := by
  simp [countPair, hx, hy]

/-- Every string of the form "--" ++ k is flag shaped. -/
theorem flagPrefixed_dashdash (k : String) : flagPrefixed ("--" ++ k) = true := by
  unfold flagPrefixed
  rw [String.data_append]
  rfl

/-- Prepending "--" is injective. -/
theorem dashdash_cancel {k t : String} (h : ("--" ++ k) = "--" ++ t) : k = t := by
  have hd := congrArg String.data h
  rw [String.data_append, String.data_append] at hd
  have hdata : k.data = t.data := List.append_cancel_left hd
  cases k
  cases t
  exact congrArg String.mk hdata

/-- An emitted extra-args block always opens with its key flag. -/
theorem extraArgEntry_head (ea : List (String × String)) (k y : String)
    (hy : (extraArgEntry ea k).head? = some y) : y = "--" ++ k := by
  by_cases hv : lookupStr k ea = ""
  · have he : extraArgEntry ea k = ["--" ++ k] := by simp [extraArgEntry, hv]
    rw [he] at hy
    simp at hy
    exact hy.symm
  · have he : extraArgEntry ea k = ["--" ++ k, lookupStr k ea] := by
      simp [extraArgEntry, hv]
    rw [he] at hy
    simp at hy
    exact hy.symm

/-- Every non-empty block of the command opens with a flag-shaped string. -/
theorem commandBlocks_heads (opts : Options) (prompt systemPrompt : String) :
    ∀ blk ∈ commandBlocks opts prompt systemPrompt, ∀ y, blk.head? = some y →
      flagPrefixed y = true := by
  intro blk hmem y hy
  unfold commandBlocks at hmem
  simp only [List.mem_cons, List.mem_append, List.mem_map,
    List.mem_singleton, List.not_mem_nil, or_false] at hmem
  rcases hmem with rfl | rfl | rfl | rfl | rfl | rfl | rfl | ⟨k, hk, rfl⟩ | rfl
  · simp at hy
    subst hy
    decide
  · split at hy
    · simp at hy
      subst hy
      decide
    · simp at hy
  · split at hy
    · simp at hy
      subst hy
      decide
    · simp at hy
  · split at hy
    · simp at hy
      subst hy
      decide
    · simp at hy
  · split at hy
    · simp at hy
      subst hy
      decide
    · simp at hy
  · split at hy
    · simp at hy
      subst hy
      decide
    · simp at hy
  · split at hy
    · simp at hy
      subst hy
      decide
    · simp at hy
  · have hh := extraArgEntry_head opts.ExtraArgs k y hy
    subst hh
    exact flagPrefixed_dashdash k
  · simp at hy
    subst hy
    decide

/-- The pair count of the built vector is the sum of the per-block pair
counts, for a non-flag-shaped value. -/
theorem countPair_buildCommand (opts : Options) (prompt systemPrompt fa fb : String)
    (hb : flagPrefixed fb = false) :
    countPair fa fb (buildCommandArgs opts prompt systemPrompt) =
      ((commandBlocks opts prompt systemPrompt).map (countPair fa fb)).sum := by
  rw [buildCommandArgs_blocks]
  exact countPair_flatten fa fb hb (commandBlocks opts prompt systemPrompt)
    (commandBlocks_heads opts prompt systemPrompt)

/-- A key of the map paired with its looked-up value is an entry of the
map. -/
theorem lookupStr_mem (ea : List (String × String)) (k : String)
    (h : k ∈ ea.map Prod.fst) : (k, lookupStr k ea) ∈ ea := by
  induction ea with
  | nil => simp at h
  | cons kv rest ih =>
    obtain ⟨k2, v⟩ := kv
    by_cases hk : k2 = k
    · subst hk
      simp [lookupStr]
    · simp only [List.map_cons, List.mem_cons] at h
      rcases h with h | h
      · exact absurd h.symm hk
      · simp [lookupStr, hk, ih h]

/-- An extra-args block contributes no occurrence of a pair it does not
spell. -/
theorem countPair_extraEntry_zero (ea : List (String × String)) (k a b : String)
    (hne : ¬ ("--" ++ k = a ∧ lookupStr k ea = b)) :
    countPair a b (extraArgEntry ea k) = 0 := by
  unfold extraArgEntry
  by_cases hv : lookupStr k ea = ""
  · simp [hv, countPair]
  · rw [if_neg hv]
    simp [countPair, hne]

/-- The extra-args blocks contribute no occurrence of a pair none of them
spells. -/
theorem extra_sum_zero (ea : List (String × String)) (a b : String)
    (h : ∀ k ∈ ea.map Prod.fst, ¬ ("--" ++ k = a ∧ lookupStr k ea = b)) :
    (((sortStrings (ea.map Prod.fst)).map (extraArgEntry ea)).map
      (countPair a b)).sum = 0 := by
  apply List.sum_eq_zero
  intro x hx
  simp only [List.map_map, List.mem_map, Function.comp] at hx
  obtain ⟨k, hk, rfl⟩ := hx
  have hk2 : k ∈ ea.map Prod.fst := by
    simpa [sortStrings, List.mem_insertionSort] using hk
  exact countPair_extraEntry_zero ea k a b (h k hk2)

/-- C7 counterexample: a configuration with tools=[a,b], allowed=[x],
model=m whose extra-args map carries the entry tools with value a,b makes
the pair --tools a,b appear twice in the built vector, refuting the claimed
"exactly once" for every such configuration. -/
theorem c7_exactly_once_counterexample :
    countPair "--tools" "a,b"
      (buildCommandArgs
        { defaultOptions with
          Tools := ["a", "b"]
          AllowedTools := ["x"]
          Model := "m"
          ExtraArgs := [("tools", "a,b")] } "p" "") = 2 := by decide

/-- C7 amended: for every configuration with tools=[a,b], allowed=[x] and
model=m whose extra-args map does not itself spell one of those three
flag-value pairs, the built vector contains --tools a,b, then
--allowedTools x, then --model m, each pair exactly once; and for every
configuration and prompt the vector ends with the print flag, the argument
delimiter, and the literal prompt. -/
theorem c7_command_vector_flags (opts : Options) (prompt systemPrompt : String)
    (ht : opts.Tools = ["a", "b"]) (ha : opts.AllowedTools = ["x"])
    (hm : opts.Model = "m")
    (hx : ∀ kv ∈ opts.ExtraArgs, kv ≠ ("tools", "a,b") ∧
      kv ≠ ("allowedTools", "x") ∧ kv ≠ ("model", "m")) :
    (∃ p1 p2 p3 p4,
      buildCommandArgs opts prompt systemPrompt =
        p1 ++ ["--tools", "a,b"] ++ p2 ++ ["--allowedTools", "x"] ++ p3 ++
          ["--model", "m"] ++ p4) ∧
    countPair "--tools" "a,b" (buildCommandArgs opts prompt systemPrompt) = 1 ∧
    countPair "--allowedTools" "x" (buildCommandArgs opts prompt systemPrompt) = 1 ∧
    countPair "--model" "m" (buildCommandArgs opts prompt systemPrompt) = 1 ∧
    (∀ (opts2 : Options) (prompt2 systemPrompt2 : String),
      ∃ front, buildCommandArgs opts2 prompt2 systemPrompt2 =
        front ++ ["--print", "--", prompt2]) := by
  have hkeysT : ∀ k ∈ opts.ExtraArgs.map Prod.fst,
      ¬ ("--" ++ k = "--tools" ∧ lookupStr k opts.ExtraArgs = "a,b") := by
    intro k hkm hand
    obtain ⟨h1, h2⟩ := hand
    have hk : k = "tools" := dashdash_cancel h1
    have hmem2 := lookupStr_mem opts.ExtraArgs k hkm
    rw [hk] at hmem2 h2
    rw [h2] at hmem2
    exact (hx _ hmem2).1 rfl
  have hkeysA : ∀ k ∈ opts.ExtraArgs.map Prod.fst,
      ¬ ("--" ++ k = "--allowedTools" ∧ lookupStr k opts.ExtraArgs = "x") := by
    intro k hkm hand
    obtain ⟨h1, h2⟩ := hand
    have hk : k = "allowedTools" := dashdash_cancel h1
    have hmem2 := lookupStr_mem opts.ExtraArgs k hkm
    rw [hk] at hmem2 h2
    rw [h2] at hmem2
    exact (hx _ hmem2).2.1 rfl
  have hkeysM : ∀ k ∈ opts.ExtraArgs.map Prod.fst,
      ¬ ("--" ++ k = "--model" ∧ lookupStr k opts.ExtraArgs = "m") := by
    intro k hkm hand
    obtain ⟨h1, h2⟩ := hand
    have hk : k = "model" := dashdash_cancel h1
    have hmem2 := lookupStr_mem opts.ExtraArgs k hkm
    rw [hk] at hmem2 h2
    rw [h2] at hmem2
    exact (hx _ hmem2).2.2 rfl
  have e2 : (if (["a", "b"] : List String).length > 0 then
      ["--tools", joinComma ["a", "b"]] else []) = ["--tools", "a,b"] := by decide
  have e3 : (if (["x"] : List String).length > 0 then
      ["--allowedTools", joinComma ["x"]] else []) = ["--allowedTools", "x"] := by
    decide
  have e5 : (if ("m" : String) ≠ "" then ["--model", "m"] else []) =
      ["--model", "m"] := by decide
  refine ⟨?_, ?_, ?_, ?_, ?_⟩
  · refine ⟨["--output-format", "stream-json", "--verbose"] ++
        (if systemPrompt ≠ "" then ["--system-prompt", systemPrompt] else []),
      [],
      (if opts.DisallowedTools.length > 0 then
        ["--disallowedTools", joinComma opts.DisallowedTools] else []),
      (if opts.PermissionMode ≠ "" then
        ["--permission-mode", opts.PermissionMode] else []) ++
        (extraArgsArgs opts.ExtraArgs ++ ["--print", "--", prompt]), ?_⟩
    simp only [buildCommandArgs, append_ite_list, ht, ha, hm]
    rw [e2, e3, e5]
    simp [List.append_assoc]
  · rw [countPair_buildCommand opts prompt systemPrompt "--tools" "a,b" (by decide)]
    unfold commandBlocks
    rw [ht, ha, hm]
    simp only [List.map_cons, List.map_nil, List.sum_cons, List.sum_nil,
      List.map_append, List.sum_append]
    rw [countPair_opt_flag "--tools" "a,b" "--system-prompt" systemPrompt
        (systemPrompt ≠ "") (by decide),
      countPair_opt_flag "--tools" "a,b" "--disallowedTools"
        (joinComma opts.DisallowedTools) (opts.DisallowedTools.length > 0) (by decide),
      countPair_opt_flag "--tools" "a,b" "--permission-mode" opts.PermissionMode
        (opts.PermissionMode ≠ "") (by decide),
      countPair_three_ne "--tools" "a,b" "--print" "--" prompt (by decide) (by decide),
      extra_sum_zero opts.ExtraArgs "--tools" "a,b" hkeysT]
    have c0 : countPair "--tools" "a,b"
        ["--output-format", "stream-json", "--verbose"] = 0 := by decide
    have c2 : countPair "--tools" "a,b" (if (["a", "b"] : List String).length > 0
        then ["--tools", joinComma ["a", "b"]] else []) = 1 := by decide
    have c3 : countPair "--tools" "a,b" (if (["x"] : List String).length > 0
        then ["--allowedTools", joinComma ["x"]] else []) = 0 := by decide
    have c5 : countPair "--tools" "a,b"
        (if ("m" : String) ≠ "" then ["--model", "m"] else []) = 0 := by decide
    rw [c0, c2, c3, c5]
    rfl
  · rw [countPair_buildCommand opts prompt systemPrompt "--allowedTools" "x"
      (by decide)]
    unfold commandBlocks
    rw [ht, ha, hm]
    simp only [List.map_cons, List.map_nil, List.sum_cons, List.sum_nil,
      List.map_append, List.sum_append]
    rw [countPair_opt_flag "--allowedTools" "x" "--system-prompt" systemPrompt
        (systemPrompt ≠ "") (by decide),
      countPair_opt_flag "--allowedTools" "x" "--disallowedTools"
        (joinComma opts.DisallowedTools) (opts.DisallowedTools.length > 0) (by decide),
      countPair_opt_flag "--allowedTools" "x" "--permission-mode" opts.PermissionMode
        (opts.PermissionMode ≠ "") (by decide),
      countPair_three_ne "--allowedTools" "x" "--print" "--" prompt
        (by decide) (by decide),
      extra_sum_zero opts.ExtraArgs "--allowedTools" "x" hkeysA]
    have c0 : countPair "--allowedTools" "x"
        ["--output-format", "stream-json", "--verbose"] = 0 := by decide
    have c2 : countPair "--allowedTools" "x" (if (["a", "b"] : List String).length > 0
        then ["--tools", joinComma ["a", "b"]] else []) = 0 := by decide
    have c3 : countPair "--allowedTools" "x" (if (["x"] : List String).length > 0
        then ["--allowedTools", joinComma ["x"]] else []) = 1 := by decide
    have c5 : countPair "--allowedTools" "x"
        (if ("m" : String) ≠ "" then ["--model", "m"] else []) = 0 := by decide
    rw [c0, c2, c3, c5]
    rfl
  · rw [countPair_buildCommand opts prompt systemPrompt "--model" "m" (by decide)]
    unfold commandBlocks
    rw [ht, ha, hm]
    simp only [List.map_cons, List.map_nil, List.sum_cons, List.sum_nil,
      List.map_append, List.sum_append]
    rw [countPair_opt_flag "--model" "m" "--system-prompt" systemPrompt
        (systemPrompt ≠ "") (by decide),
      countPair_opt_flag "--model" "m" "--disallowedTools"
        (joinComma opts.DisallowedTools) (opts.DisallowedTools.length > 0) (by decide),
      countPair_opt_flag "--model" "m" "--permission-mode" opts.PermissionMode
        (opts.PermissionMode ≠ "") (by decide),
      countPair_three_ne "--model" "m" "--print" "--" prompt (by decide) (by decide),
      extra_sum_zero opts.ExtraArgs "--model" "m" hkeysM]
    have c0 : countPair "--model" "m"
        ["--output-format", "stream-json", "--verbose"] = 0 := by decide
    have c2 : countPair "--model" "m" (if (["a", "b"] : List String).length > 0
        then ["--tools", joinComma ["a", "b"]] else []) = 0 := by decide
    have c3 : countPair "--model" "m" (if (["x"] : List String).length > 0
        then ["--allowedTools", joinComma ["x"]] else []) = 0 := by decide
    have c5 : countPair "--model" "m"
        (if ("m" : String) ≠ "" then ["--model", "m"] else []) = 1 := by decide
    rw [c0, c2, c3, c5]
    rfl
  · intro opts2 prompt2 systemPrompt2
    exact ⟨_, by unfold buildCommandArgs; rfl⟩

/-- C7 witness: the example configuration with empty extra args. -/
theorem c7_command_vector_flags_witness :
    (∃ p1 p2 p3 p4,
      buildCommandArgs
          { defaultOptions with
            Tools := ["a", "b"]
            AllowedTools := ["x"]
            Model := "m" } "p" "" =
        p1 ++ ["--tools", "a,b"] ++ p2 ++ ["--allowedTools", "x"] ++ p3 ++
          ["--model", "m"] ++ p4) ∧
    countPair "--tools" "a,b"
      (buildCommandArgs
        { defaultOptions with
          Tools := ["a", "b"]
          AllowedTools := ["x"]
          Model := "m" } "p" "") = 1 ∧
    countPair "--allowedTools" "x"
      (buildCommandArgs
        { defaultOptions with
          Tools := ["a", "b"]
          AllowedTools := ["x"]
          Model := "m" } "p" "") = 1 ∧
    countPair "--model" "m"
      (buildCommandArgs
        { defaultOptions with
          Tools := ["a", "b"]
          AllowedTools := ["x"]
          Model := "m" } "p" "") = 1 ∧
    (∀ (opts2 : Options) (prompt2 systemPrompt2 : String),
      ∃ front, buildCommandArgs opts2 prompt2 systemPrompt2 =
        front ++ ["--print", "--", prompt2]) :=
  c7_command_vector_flags
    { defaultOptions with
      Tools := ["a", "b"]
      AllowedTools := ["x"]
      Model := "m" }
    "p" "" rfl rfl rfl (fun _ h => nomatch h)

end LLMClaudeCode
